import Mathlib

/-!
Verification of the InfoDiode test system (sender / recipient) against its
natural-language specification.

The Go sources are shallowly embedded:

* `Message`, `Data`, `MessageBatch` mirror `shared/models` (an Envelope on the
  wire is a serialized `Message`).
* Byte streams are `List Nat` with every element a byte value; Go strings are
  Lean `String`, converted to bytes by `strBytes` (UTF-8).
* The JSON encoding produced by `encoding/json` for these fixed structs is
  reimplemented (`encodeMessage`, `encodeData`); JSON decoding and the SHA-256
  digest of the Go standard library are abstracted as parameters (`decM`,
  `decB`, `hash`): the claims under study depend on the repository code, not
  on the internals of those library functions.
* The float64 steps of the latency pipeline (int64→float64 conversion,
  division and multiplication by 1000.0, truncation back to int64) are
  modelled bit-exactly: `F64` represents a binary64 value as an exact dyadic
  rational and `f64round` performs IEEE-754 round-to-nearest, ties to even.
* Stateful code (the TCP server reader loop, the message processor, the HTTP
  handlers) becomes explicit state passing; the atomic counters and CAS loops
  are modelled by their sequential semantics, one operation at a time, which
  is the serialization order the Go memory model guarantees for atomics.
-/

/-- Message mirrors `shared/models.Message` (the Envelope): fields
`send_time`, `message_id`, `timestamp`, `payload`, `checksum`. -/
structure Message where
  sendTime : String
  messageID : Int
  timestamp : String
  payload : String
  checksum : String
deriving DecidableEq, Repr, Inhabited

/-- Data mirrors `shared/models.Data`, the generated record serialized into an
Envelope payload. -/
structure Data where
  id : Int
  timestamp : String
  indicatorID : Int
  indicatorValue : String
  equipmentID : Int
deriving DecidableEq, Repr, Inhabited

/-- MessageBatch mirrors `shared/models.MessageBatch`: the messages, a batch
timestamp and the informational `count` field. -/
structure MessageBatch where
  messages : List Message
  timestamp : String
  count : Int
deriving DecidableEq, Repr

/-- UTF-8 encoding of one Unicode code point, as Go strings store text. -/
def utf8EncodeChar (c : Nat) : List Nat :=
  if c < 0x80 then [c]
  else if c < 0x800 then [0xC0 + c / 64, 0x80 + c % 64]
  else if c < 0x10000 then [0xE0 + c / 4096, 0x80 + c / 64 % 64, 0x80 + c % 64]
  else [0xF0 + c / 262144, 0x80 + c / 4096 % 64, 0x80 + c / 64 % 64, 0x80 + c % 64]

/-- Byte sequence of a Go string (Go strings are UTF-8 byte strings; Go
indexing and `len` are byte-wise). -/
def strBytes (s : String) : List Nat :=
  (s.data.map (fun ch => utf8EncodeChar ch.toNat)).flatten

/-- Lowercase hex digit, as `encoding/json` uses in escapes. -/
def hexDigitChar (n : Nat) : Char :=
  if n < 10 then Char.ofNat (0x30 + n) else Char.ofNat (0x57 + n)

/-- Escaping `encoding/json` applies inside a JSON string: quote, backslash,
newline, carriage return, tab, other control characters, the HTML-escaped
characters and U+2028/U+2029; anything else is emitted as itself. -/
def jsonEscapeChar (c : Char) : String :=
  if c = Char.ofNat 0x22 then "\\\""
  else if c = Char.ofNat 0x5C then "\\\\"
  else if c = Char.ofNat 0x0A then "\\n"
  else if c = Char.ofNat 0x0D then "\\r"
  else if c = Char.ofNat 0x09 then "\\t"
  else if c.toNat < 0x20 ∨ c.toNat = 0x3C ∨ c.toNat = 0x3E ∨ c.toNat = 0x26 then
    "\\u00" ++ String.mk [hexDigitChar (c.toNat / 16), hexDigitChar (c.toNat % 16)]
  else if c.toNat = 0x2028 ∨ c.toNat = 0x2029 then
    "\\u202" ++ String.mk [hexDigitChar (c.toNat % 16)]
  else String.mk [c]

/-- JSON string literal: opening quote, escaped contents, closing quote. -/
def jsonQuote (s : String) : String :=
  "\"" ++ String.join (s.data.map jsonEscapeChar) ++ "\""

/-- Decimal digits of a natural number (auxiliary, fuel-driven). -/
def natStrAux : Nat → Nat → List Char
  | 0, _ => []
  | fuel + 1, n =>
    if n = 0 then [] else natStrAux fuel (n / 10) ++ [Char.ofNat (0x30 + n % 10)]

/-- Decimal rendering of a natural number. -/
def natStr (n : Nat) : String :=
  if n = 0 then "0" else String.mk (natStrAux (n + 1) n)

/-- Decimal rendering of an integer, with a leading minus sign when negative,
as `encoding/json` renders Go ints. -/
def intStr (i : Int) : String :=
  if i < 0 then "-" ++ natStr (-i).toNat else natStr i.toNat

/-- Output of `json.Marshal` applied to a `models.Message`: an object literal
with the five fields in struct order (braces written as \x7b and \x7d). -/
def encodeMessage (m : Message) : String :=
  "\x7b\"send_time\":" ++ jsonQuote m.sendTime
    ++ ",\"message_id\":" ++ intStr m.messageID
    ++ ",\"timestamp\":" ++ jsonQuote m.timestamp
    ++ ",\"payload\":" ++ jsonQuote m.payload
    ++ ",\"checksum\":" ++ jsonQuote m.checksum
    ++ "\x7d"

/-- Output of `json.Marshal` applied to a `models.Data` record. -/
def encodeData (d : Data) : String :=
  "\x7b\"id\":" ++ intStr d.id
    ++ ",\"timestamp\":" ++ jsonQuote d.timestamp
    ++ ",\"indicator_id\":" ++ intStr d.indicatorID
    ++ ",\"indicator_value\":" ++ jsonQuote d.indicatorValue
    ++ ",\"equipment_id\":" ++ intStr d.equipmentID
    ++ "\x7d"

/-- Big-endian 4-byte encoding of a length, as `binary.BigEndian.PutUint32`
writes `uint32(len(data))` in `TCPClient.Send` — the `uint32` cast truncates
mod 2^32, which the per-byte `% 256` reproduces. -/
def putUint32BE (n : Nat) : List Nat :=
  [n / 2 ^ 24 % 256, n / 2 ^ 16 % 256, n / 2 ^ 8 % 256, n % 256]

/-- Value read by `binary.BigEndian.Uint32` from 4 bytes. -/
def be32 (l : List Nat) : Nat :=
  match l with
  | [a, b, c, d] => ((a * 256 + b) * 256 + c) * 256 + d
  | _ => 0

/-- Frame written by `TCPClient.Send` for one serialized envelope: the 4-byte
big-endian length prefix followed by the JSON bytes (no marker byte). -/
def clientMessageFrame (data : List Nat) : List Nat :=
  putUint32BE data.length ++ data

/-- Frame written by `TCPClient.SendBatch`: marker byte 0x01, then the 4-byte
big-endian length, then the serialized batch. -/
def clientBatchFrame (data : List Nat) : List Nat :=
  0x01 :: putUint32BE data.length ++ data

/-- Result of `io.ReadFull` of `n` bytes from a finite stream: the bytes read
and the remaining stream, or failure when the stream is shorter than `n` (in
which case the whole stream has been consumed). -/
def readExact (n : Nat) (s : List Nat) : Option (List Nat × List Nat) :=
  if n ≤ s.length then some (s.take n, s.drop n) else none

/-- Frame-size ceiling enforced by `handleMessage` and `handleBatch`
(100 MiB). -/
def maxFrame : Nat := 100 * 1024 * 1024

/-- Observable outcome of one server reader iteration: a single envelope
handed to `ProcessMessage`, a batch whose message list is handed to
`ProcessMessage` one by one (with the informational `count`), or an error
returned by `handleMessage`/`handleBatch` to `handleConnection`, which logs
it, bumps the error counter, and keeps the connection (`oversized` is true
exactly when the error is the frame-size check). -/
inductive SrvEvent where
  | single : Message → SrvEvent
  | batch : List Message → Int → SrvEvent
  | frameError : Bool → SrvEvent
deriving DecidableEq, Repr

/-- Model of `TCPServer.handleMessage`: read the 4-byte length, reject lengths
over 100 MiB before reading the body, read the body, JSON-decode it (`decM`
abstracts `json.Unmarshal` into `models.Message`), process on success. The
returned stream is what is left on the connection for the next iteration. -/
def handleMessageF (decM : List Nat → Option Message) (s : List Nat) :
    SrvEvent × List Nat :=
  match readExact 4 s with
  | none => (.frameError false, [])
  | some (lb, r1) =>
    if maxFrame < be32 lb then (.frameError true, r1)
    else
      match readExact (be32 lb) r1 with
      | none => (.frameError false, [])
      | some (body, r2) =>
        match decM body with
        | none => (.frameError false, r2)
        | some m => (.single m, r2)

/-- Model of `TCPServer.handleBatch` (entered after the 0x01 marker byte):
read the 4-byte length, reject lengths over 100 MiB, read and decode the
batch (`decB` abstracts `json.Unmarshal` into `models.MessageBatch`), then
iterate over the actual `Messages` slice — the `count` field is only
reported. -/
def handleBatchF (decB : List Nat → Option MessageBatch) (s : List Nat) :
    SrvEvent × List Nat :=
  match readExact 4 s with
  | none => (.frameError false, [])
  | some (lb, r1) =>
    if maxFrame < be32 lb then (.frameError true, r1)
    else
      match readExact (be32 lb) r1 with
      | none => (.frameError false, [])
      | some (body, r2) =>
        match decB body with
        | none => (.frameError false, r2)
        | some b => (.batch b.messages b.count, r2)

theorem readExact_none_iff (n : Nat) (s : List Nat) :
    readExact n s = none ↔ s.length < n := by
  unfold readExact
  split <;> simp <;> omega

theorem readExact_some (n : Nat) (s a r : List Nat)
    (h : readExact n s = some (a, r)) :
    a = s.take n ∧ r = s.drop n ∧ n ≤ s.length := by
  unfold readExact at h
  split at h
  · simp_all
  · simp at h

theorem handleMessageF_rest (decM : List Nat → Option Message) (s : List Nat) :
    (handleMessageF decM s).2.length + 4 ≤ s.length ∨
      (handleMessageF decM s).2 = [] := by
  unfold handleMessageF
  cases h4 : readExact 4 s with
  | none => right; rfl
  | some p =>
    obtain ⟨lb, r1⟩ := p
    obtain ⟨-, hr1, hle⟩ := readExact_some 4 s lb r1 h4
    have hr1len : r1.length + 4 ≤ s.length := by
      subst hr1; simp only [List.length_drop]; omega
    dsimp only
    split
    · left; exact hr1len
    · cases hb : readExact (be32 lb) r1 with
      | none => right; rfl
      | some q =>
        obtain ⟨body, r2⟩ := q
        obtain ⟨-, hr2, -⟩ := readExact_some _ r1 body r2 hb
        have hr2len : r2.length ≤ r1.length := by
          subst hr2; simp only [List.length_drop]; omega
        simp only [hb]
        cases hd : decM body with
        | none => left; dsimp only; omega
        | some m => left; dsimp only; omega

theorem handleMessageF_rest_lt (decM : List Nat → Option Message)
    (b : Nat) (rest : List Nat) :
    (handleMessageF decM (b :: rest)).2.length < (b :: rest).length := by
  rcases handleMessageF_rest decM (b :: rest) with h | h
  · simp only [List.length_cons] at h ⊢; omega
  · simp [h]

theorem handleBatchF_rest (decB : List Nat → Option MessageBatch)
    (s : List Nat) :
    (handleBatchF decB s).2.length + 4 ≤ s.length ∨
      (handleBatchF decB s).2 = [] := by
  unfold handleBatchF
  cases h4 : readExact 4 s with
  | none => right; rfl
  | some p =>
    obtain ⟨lb, r1⟩ := p
    obtain ⟨-, hr1, hle⟩ := readExact_some 4 s lb r1 h4
    have hr1len : r1.length + 4 ≤ s.length := by
      subst hr1; simp only [List.length_drop]; omega
    dsimp only
    split
    · left; exact hr1len
    · cases hb : readExact (be32 lb) r1 with
      | none => right; rfl
      | some q =>
        obtain ⟨body, r2⟩ := q
        obtain ⟨-, hr2, -⟩ := readExact_some _ r1 body r2 hb
        have hr2len : r2.length ≤ r1.length := by
          subst hr2; simp only [List.length_drop]; omega
        simp only [hb]
        cases hd : decB body with
        | none => left; dsimp only; omega
        | some b => left; dsimp only; omega

theorem handleBatchF_rest_le (decB : List Nat → Option MessageBatch)
    (s : List Nat) :
    (handleBatchF decB s).2.length ≤ s.length := by
  rcases handleBatchF_rest decB s with h | h
  · omega
  · simp [h]

/-- Fuel-driven body of the reader loop of `TCPServer.handleConnection`:
read one byte and dispatch on it — 0x01 opens the batch path, 0x00 is a
keep-alive probe and is skipped, any other value is pushed back
(`UnreadByte`) and the single-envelope path reads it as the first length
byte. An error from either handler is logged and counted, after which the
loop continues on the same connection; end of stream ends the loop (read
timeouts, which the Go loop ignores, do not occur on a finite stream). Every
iteration consumes at least one byte, so fuel equal to the stream length
never runs out (`handleConnectionGo_congr`). -/
def handleConnectionGo (decM : List Nat → Option Message)
    (decB : List Nat → Option MessageBatch) : Nat → List Nat → List SrvEvent
  | _, [] => []
  | 0, _ :: _ => []
  | fuel + 1, b :: rest =>
    if b = 0x01 then
      (handleBatchF decB rest).1 ::
        handleConnectionGo decM decB fuel (handleBatchF decB rest).2
    else if b = 0x00 then
      handleConnectionGo decM decB fuel rest
    else
      (handleMessageF decM (b :: rest)).1 ::
        handleConnectionGo decM decB fuel (handleMessageF decM (b :: rest)).2

/-- Model of the reader loop of `TCPServer.handleConnection` over the finite
byte stream of one connection. -/
def handleConnection (decM : List Nat → Option Message)
    (decB : List Nat → Option MessageBatch) (s : List Nat) : List SrvEvent :=
  handleConnectionGo decM decB s.length s

theorem handleConnectionGo_congr (decM : List Nat → Option Message)
    (decB : List Nat → Option MessageBatch) :
    ∀ fuel1 fuel2 s, s.length ≤ fuel1 → s.length ≤ fuel2 →
      handleConnectionGo decM decB fuel1 s = handleConnectionGo decM decB fuel2 s := by
  intro fuel1
  induction fuel1 with
  | zero =>
    intro fuel2 s h1 _
    have : s = [] := List.length_eq_zero.mp (by omega)
    subst this
    cases fuel2 <;> rfl
  | succ f1 ih =>
    intro fuel2 s h1 h2
    cases s with
    | nil => cases fuel2 <;> rfl
    | cons b rest =>
      cases fuel2 with
      | zero => simp at h2
      | succ f2 =>
        simp only [handleConnectionGo]
        by_cases hb1 : b = 0x01
        · simp only [hb1, if_true]
          have hle := handleBatchF_rest_le decB rest
          have := ih f2 (handleBatchF decB rest).2
            (by simp only [List.length_cons] at h1; omega)
            (by simp only [List.length_cons] at h2; omega)
          rw [this]
        · by_cases hb0 : b = 0x00
          · simp only [hb1, hb0, if_false, if_true]
            exact ih f2 rest
              (by simp only [List.length_cons] at h1; omega)
              (by simp only [List.length_cons] at h2; omega)
          · simp only [hb1, hb0, if_false]
            have hlt := handleMessageF_rest_lt decM b rest
            have := ih f2 (handleMessageF decM (b :: rest)).2
              (by simp only [List.length_cons] at h1 hlt ⊢; omega)
              (by simp only [List.length_cons] at h2 hlt ⊢; omega)
            rw [this]

/-- One-step unfolding of the reader loop on a nonempty stream. -/
theorem handleConnection_cons (decM : List Nat → Option Message)
    (decB : List Nat → Option MessageBatch) (b : Nat) (rest : List Nat) :
    handleConnection decM decB (b :: rest) =
      if b = 0x01 then
        (handleBatchF decB rest).1 ::
          handleConnection decM decB (handleBatchF decB rest).2
      else if b = 0x00 then
        handleConnection decM decB rest
      else
        (handleMessageF decM (b :: rest)).1 ::
          handleConnection decM decB (handleMessageF decM (b :: rest)).2 := by
  show handleConnectionGo decM decB (rest.length + 1) (b :: rest) = _
  simp only [handleConnectionGo]
  by_cases hb1 : b = 0x01
  · simp only [hb1, if_true]
    have hle := handleBatchF_rest_le decB rest
    rw [handleConnectionGo_congr decM decB rest.length
      (handleBatchF decB rest).2.length (handleBatchF decB rest).2 hle (le_refl _)]
    rfl
  · by_cases hb0 : b = 0x00
    · simp only [hb1, hb0, if_false, if_true]
      rfl
    · simp only [hb1, hb0, if_false]
      have hlt := handleMessageF_rest_lt decM b rest
      rw [handleConnectionGo_congr decM decB rest.length
        (handleMessageF decM (b :: rest)).2.length (handleMessageF decM (b :: rest)).2
        (by simp only [List.length_cons] at hlt; omega) (le_refl _)]
      rfl

/-- ChecksumComparison mirrors `validator.ChecksumComparison`. -/
structure ChecksumComparison where
  expected : String
  actual : String
  isValid : Bool
  firstMismatchPosition : Nat
  lengthDifference : Int
deriving DecidableEq, Repr

/-- Loop of `CompareChecksums` locating the first differing byte within the
common-prefix range: it walks positions 0..minLen-1 and stops at the first
mismatch; when no position in that range differs the result stays at the
zero value the struct field was initialized with. -/
def firstMismatchAux : List Nat → List Nat → Nat → Nat
  | e :: etl, a :: atl, i => if e ≠ a then i else firstMismatchAux etl atl (i + 1)
  | _, _, _ => 0

/-- Model of `ChecksumValidator.CompareChecksums`: records both digests, the
equality verdict, and on mismatch the first differing byte position within
the shorter length plus the byte-length difference. -/
def CompareChecksums (expected actual : String) : ChecksumComparison :=
  if expected = actual then
    { expected := expected, actual := actual, isValid := true,
      firstMismatchPosition := 0, lengthDifference := 0 }
  else
    { expected := expected, actual := actual, isValid := false,
      firstMismatchPosition := firstMismatchAux (strBytes expected) (strBytes actual) 0,
      lengthDifference :=
        ((strBytes expected).length : Int) - ((strBytes actual).length : Int) }

/-- ProcessorStats mirrors `processor.ProcessorStats` (the atomic counters;
latencies in microseconds as the Go code stores them). -/
structure ProcessorStats where
  messagesReceived : Int
  messagesProcessed : Int
  messagesValid : Int
  messagesInvalid : Int
  checksumErrors : Int
  processingErrors : Int
  totalBytesReceived : Int
  totalLatency : Int
  minLatency : Int
  maxLatency : Int
deriving DecidableEq, Repr

/-- Zero value of `ProcessorStats`, as allocated by `NewMessageProcessor` or
`ResetStats`. -/
def ProcessorStats.zero : ProcessorStats :=
  { messagesReceived := 0, messagesProcessed := 0, messagesValid := 0,
    messagesInvalid := 0, checksumErrors := 0, processingErrors := 0,
    totalBytesReceived := 0, totalLatency := 0, minLatency := 0, maxLatency := 0 }

/-- Model of `ChecksumValidator.ValidateMessage` (the non-nil case): empty
payload or empty checksum is an error with a false verdict; otherwise the
verdict is whether the digest recomputed over the payload equals the embedded
checksum. `hash` abstracts `utils.CalculateChecksumString` (SHA-256 hex).
Returns (isValid, hadError). -/
def ValidateMessage (hash : String → String) (m : Message) : Bool × Bool :=
  if m.payload = "" then (false, true)
  else if m.checksum = "" then (false, true)
  else (hash m.payload == m.checksum, false)

/-- Truncating division of a Go `time.Duration` (nanoseconds) by 1000, which
is what `Duration.Microseconds` computes; Go integer division truncates
toward zero. -/
def durationMicroseconds (d : Int) : Int :=
  if d < 0 then -(((-d).toNat / 1000 : Nat) : Int) else ((d.toNat / 1000 : Nat) : Int)

/-- Bit length of a natural number (fuel-driven; the fuel only bounds the
number of halvings, the recursion stops at 0). -/
def bitlenAux : Nat → Nat → Nat
  | 0, _ => 0
  | fuel + 1, n => if n = 0 then 0 else bitlenAux fuel (n / 2) + 1

/-- Bit length: 2^(bitlen n − 1) ≤ n < 2^(bitlen n) for n > 0. -/
def bitlen (n : Nat) : Nat := bitlenAux n n

/-- Scaled comparison `q · 2^k ≤ p` for a possibly negative exponent `k`. -/
def geScaled (p q : Nat) (k : Int) : Bool :=
  if 0 ≤ k then decide (q * 2 ^ k.toNat ≤ p) else decide (q ≤ p * 2 ^ (-k).toNat)

/-- Round the positive rational p/q (q > 0) to the nearest IEEE-754 binary64
value, ties to even, returned as significand · 2^exponent with the
significand normalized to [2^52, 2^53) (0 for p = 0). The exponent range is
unbounded — subnormal and infinite results never arise at the magnitudes the
latency pipeline produces. -/
def roundPosRat (p q : Nat) : Nat × Int :=
  if p = 0 then (0, 0)
  else
    let E0 : Int := (bitlen p : Int) - (bitlen q : Int) - 53
    let E : Int := if geScaled p q (E0 + 53) then E0 + 1 else E0
    let P := if E < 0 then p * 2 ^ (-E).toNat else p
    let Q := if E < 0 then q else q * 2 ^ E.toNat
    let m0 := P / Q
    let r := P % Q
    let m := if Q < 2 * r ∨ (2 * r = Q ∧ m0 % 2 = 1) then m0 + 1 else m0
    if m = 2 ^ 53 then (2 ^ 52, E + 1) else (m, E)

/-- A finite IEEE-754 binary64 value, exactly represented as sig · 2^ex with
|sig| < 2^53 (sig = 0 for zero). All values are built through `f64round`,
which performs the correct rounding, so every arithmetic step of the latency
pipeline is bit-exact with the Go float64 computation. -/
structure F64 where
  sig : Int
  ex : Int
deriving DecidableEq, Repr

/-- Correctly rounded (to nearest, ties to even) binary64 value of the
rational num/den; IEEE rounding is symmetric under negation, so the sign is
split off and the magnitude rounded. -/
def f64round (num : Int) (den : Nat) : F64 :=
  if num < 0 then
    let p := roundPosRat (-num).toNat den
    ⟨-(p.1 : Int), p.2⟩
  else
    let p := roundPosRat num.toNat den
    ⟨(p.1 : Int), p.2⟩

/-- Go conversion `float64(i)` of an int64: correctly rounded (exact below
2^53). -/
def f64ofInt (i : Int) : F64 := f64round i 1

/-- IEEE division of a binary64 value by 1000.0: the correctly rounded true
quotient. -/
def f64div1000 (x : F64) : F64 :=
  if 0 ≤ x.ex then f64round (x.sig * 2 ^ x.ex.toNat) 1000
  else f64round x.sig (1000 * 2 ^ (-x.ex).toNat)

/-- IEEE multiplication of a binary64 value by 1000.0: the correctly rounded
true product. -/
def f64mul1000 (x : F64) : F64 :=
  if 0 ≤ x.ex then f64round (x.sig * 1000 * 2 ^ x.ex.toNat) 1
  else f64round (x.sig * 1000) (2 ^ (-x.ex).toNat)

/-- Go conversion `int64(f)` of a float64: truncation toward zero (int64
overflow cannot arise at the magnitudes the latency pipeline produces). -/
def f64trunc (x : F64) : Int :=
  if 0 ≤ x.ex then x.sig * 2 ^ x.ex.toNat
  else Int.tdiv x.sig (2 ^ (-x.ex).toNat)

/-- Model of `utils.CalculateLatency`: parse both RFC3339Nano timestamps
(`parse` abstracts `time.Parse`, giving epoch nanoseconds) and return the
float64 value `float64(received.Sub(sent).Microseconds()) / 1000.0` — the
latency in fractional milliseconds: the nanosecond difference is truncated
to whole microseconds by int64 division, converted to float64, and divided
by 1000.0, each float step correctly rounded as IEEE-754 prescribes. The
round trip back to microseconds that the processor performs is lossy (a true
latency of 1001 µs stores as 1000 µs). -/
def CalculateLatency (parse : String → Option Int) (sendTime receiveTime : String) :
    Option F64 :=
  match parse sendTime with
  | none => none
  | some sent =>
    match parse receiveTime with
    | none => none
    | some received =>
      some (f64div1000 (f64ofInt (durationMicroseconds (received - sent))))

/-- First CAS loop of `updateMinMaxLatency`, sequentially: store the new
latency when the stored minimum is 0 (unset) or larger. -/
def updateMinLatency (st : ProcessorStats) (latencyMicros : Int) : ProcessorStats :=
  if st.minLatency = 0 ∨ latencyMicros < st.minLatency then
    { st with minLatency := latencyMicros }
  else st

/-- Second CAS loop of `updateMinMaxLatency`, sequentially: store the new
latency when it exceeds the stored maximum. -/
def updateMaxLatency (st : ProcessorStats) (latencyMicros : Int) : ProcessorStats :=
  if st.maxLatency < latencyMicros then
    { st with maxLatency := latencyMicros }
  else st

/-- Model of `MessageProcessor.updateMinMaxLatency`: the min update followed
by the max update. -/
def updateMinMaxLatency (st : ProcessorStats) (latencyMicros : Int) : ProcessorStats :=
  updateMaxLatency (updateMinLatency st latencyMicros) latencyMicros

/-- Model of `MessageProcessor.ProcessMessage` as a state transform on the
counters: received+1, byte count of the re-marshalled message, checksum
validation (invalid ⇒ invalid and checksum-error counters; validation error
⇒ processing-error counter too), the latency block (skipped when `send_time`
is empty or unparsable — the sign of the latency is never checked), and
finally processed+1. The stored value is `int64(latency * 1000)`: the
float64 latency multiplied by 1000.0 (correctly rounded) and truncated to
int64. `receiveTime` stands for the `utils.GetCurrentTime()` call at
entry. -/
def ProcessMessage (hash : String → String) (parse : String → Option Int)
    (receiveTime : String) (st : ProcessorStats) (m : Message) : ProcessorStats :=
  let st1 := { st with messagesReceived := st.messagesReceived + 1 }
  let st2 := { st1 with totalBytesReceived :=
    st1.totalBytesReceived + ((strBytes (encodeMessage m)).length : Int) }
  let v := ValidateMessage hash m
  let st3 :=
    if v.2 then { st2 with processingErrors := st2.processingErrors + 1 } else st2
  let st4 :=
    if v.1 then { st3 with messagesValid := st3.messagesValid + 1 }
    else { st3 with messagesInvalid := st3.messagesInvalid + 1,
                    checksumErrors := st3.checksumErrors + 1 }
  let st5 :=
    if m.sendTime = "" then st4
    else
      match CalculateLatency parse m.sendTime receiveTime with
      | none => st4
      | some latency =>
        updateMinMaxLatency
          { st4 with totalLatency :=
              st4.totalLatency + f64trunc (f64mul1000 latency) }
          (f64trunc (f64mul1000 latency))
  { st5 with messagesProcessed := st5.messagesProcessed + 1 }

/-- Quota the batch test hands to worker `i`: `RunBatchTest` gives every
worker `totalMessages / threadCount` and worker 0 additionally the remainder
`totalMessages % threadCount`. The HTTP binding validates
`thread_count ≥ 1` and `total_messages ≥ 1`, so Nat division matches the Go
int division. -/
def workerQuota (totalMessages threadCount i : Nat) : Nat :=
  totalMessages / threadCount + if i = 0 then totalMessages % threadCount else 0

/-- Send loop of `batchWorker` (fuel-driven): while `sent < messageCount`,
send a sub-batch of `batchSize` messages, truncated to the quota remainder
for the final sub-batch; returns the total number of envelopes constructed
and passed to the transport when no deadline or stop signal fires. -/
def batchLoopFuel : Nat → Nat → Nat → Nat → Nat
  | 0, _, _, _ => 0
  | fuel + 1, batchSize, messageCount, sent =>
    if sent < messageCount then
      (if messageCount < sent + batchSize then messageCount - sent else batchSize) +
        batchLoopFuel fuel batchSize messageCount
          (sent + if messageCount < sent + batchSize then messageCount - sent else batchSize)
    else 0

/-- Number of envelopes a `batchWorker` with quota `messageCount` sends when
no deadline or cancellation intervenes: sub-batch size 100, clipped to the
quota when the quota is smaller. -/
def batchWorkerSent (messageCount : Nat) : Nat :=
  batchLoopFuel messageCount (if messageCount < 100 then messageCount else 100)
    messageCount 0

/-- Wrap-around of a Go int64, for the `atomic.Int64` message-id counter. -/
def int64Wrap (x : Int) : Int := (x + 2 ^ 63) % 2 ^ 64 - 2 ^ 63

/-- One `messageIDGen.Add(1)` call: the counter is incremented and the new
value is returned (int64 arithmetic). -/
def messageIDGenAdd (c : Int) : Int := int64Wrap (c + 1)

/-- Ids handed out by `k` successive `messageIDGen.Add(1)` calls starting
from counter value `c` — the shared atomic counter serializes all callers
(workers, modes, transports), so any interleaving is some sequence of these
calls. -/
def assignIDs : Nat → Int → List Int
  | 0, _ => []
  | k + 1, c => messageIDGenAdd c :: assignIDs k (messageIDGenAdd c)

/-- Envelope construction inside `batchWorker` (manager.go, the sub-batch
loop): the payload serializes the record at `dataIndex % len(data)`, then
`dataIndex` is incremented, and only after that the `Timestamp` field is read
from `data[dataIndex % len(data)]` — the record after the one serialized.
`hash` abstracts the SHA-256 hex digest, `sendTime` the
`utils.GetCurrentTime()` call, `newID` the id from the shared counter. -/
def batchWorkerMessage (hash : String → String) (sendTime : String) (newID : Int)
    (data : List Data) (dataIndex : Nat) : Message :=
  { messageID := newID
    sendTime := sendTime
    timestamp := (data.getD ((dataIndex + 1) % data.length) default).timestamp
    payload := encodeData (data.getD (dataIndex % data.length) default)
    checksum := hash (encodeData (data.getD (dataIndex % data.length) default)) }

/-- Envelope construction inside `RunStreamTest` on each ticker tick; the
code is the same index pattern as `batchWorker`: marshal
`data[dataIndex % len]`, increment `dataIndex`, then read the `Timestamp`
field from the new index. -/
def streamTickMessage (hash : String → String) (sendTime : String) (newID : Int)
    (data : List Data) (dataIndex : Nat) : Message :=
  { messageID := newID
    sendTime := sendTime
    timestamp := (data.getD ((dataIndex + 1) % data.length) default).timestamp
    payload := encodeData (data.getD (dataIndex % data.length) default)
    checksum := hash (encodeData (data.getD (dataIndex % data.length) default)) }

/-- TestConfig mirrors `models.TestConfig`. -/
structure TestConfig where
  type : String
  protocol : String
  threadCount : Int
  packetSize : Int
  messagesPerSec : Int
  duration : Int
  totalMessages : Int
deriving DecidableEq, Repr

/-- BatchTestRequest mirrors `api.BatchTestRequest` after binding validation
(`thread_count ≥ 1`, `total_messages ≥ 1`, `duration ≥ 1`,
`packet_size ≥ 100`). -/
structure BatchTestRequest where
  protocol : String
  threadCount : Int
  packetSize : Int
  totalMessages : Int
  duration : Int
deriving DecidableEq, Repr

/-- StreamTestRequest mirrors `api.StreamTestRequest` after binding
validation. -/
structure StreamTestRequest where
  protocol : String
  messagesPerSec : Int
  packetSize : Int
  duration : Int
deriving DecidableEq, Repr

/-- LargeTestRequest mirrors `api.LargeTestRequest` after binding
validation. -/
structure LargeTestRequest where
  protocol : String
  threadCount : Int
  packetSizeMB : Int
  duration : Int
deriving DecidableEq, Repr

/-- State of the API server that the start handlers read and write:
`isTestActive`, `currentTest`, and the test manager (abstracted as `M`; the
running test's configuration and statistics live there). -/
structure APIState (M : Type) where
  isTestActive : Bool
  currentTest : Option TestConfig
  manager : M

/-- HTTP outcome of a start handler: 409 Conflict or 200 with the started
configuration. -/
inductive StartResult where
  | conflict
  | started (cfg : TestConfig)
deriving DecidableEq, Repr

/-- Model of `API.startBatchTest` after a successful JSON bind: under the
read lock, an active test short-circuits to 409 Conflict with no state
change; otherwise the config is built (MQTT protocol default), the test is
marked active and the manager runs it (`runTest` abstracts the goroutine
running `Manager.RunBatchTest`). -/
def startBatchTest {M : Type} (runTest : TestConfig → M → M)
    (req : BatchTestRequest) (st : APIState M) : StartResult × APIState M :=
  if st.isTestActive then (.conflict, st)
  else
    let config : TestConfig :=
      { type := "batch"
        protocol := if req.protocol = "" then "mqtt" else req.protocol
        threadCount := req.threadCount
        packetSize := req.packetSize
        messagesPerSec := 0
        duration := req.duration
        totalMessages := req.totalMessages }
    (.started config,
      { isTestActive := true, currentTest := some config,
        manager := runTest config st.manager })

/-- Model of `API.startStreamTest` after a successful JSON bind (stream tests
always use one thread). -/
def startStreamTest {M : Type} (runTest : TestConfig → M → M)
    (req : StreamTestRequest) (st : APIState M) : StartResult × APIState M :=
  if st.isTestActive then (.conflict, st)
  else
    let config : TestConfig :=
      { type := "stream"
        protocol := if req.protocol = "" then "mqtt" else req.protocol
        threadCount := 1
        packetSize := req.packetSize
        messagesPerSec := req.messagesPerSec
        duration := req.duration
        totalMessages := 0 }
    (.started config,
      { isTestActive := true, currentTest := some config,
        manager := runTest config st.manager })

/-- Model of `API.startLargeTest` after a successful JSON bind (packet size
converted from MB to bytes). -/
def startLargeTest {M : Type} (runTest : TestConfig → M → M)
    (req : LargeTestRequest) (st : APIState M) : StartResult × APIState M :=
  if st.isTestActive then (.conflict, st)
  else
    let config : TestConfig :=
      { type := "large"
        protocol := if req.protocol = "" then "mqtt" else req.protocol
        threadCount := req.threadCount
        packetSize := req.packetSizeMB * 1024 * 1024
        messagesPerSec := 0
        duration := req.duration
        totalMessages := 0 }
    (.started config,
      { isTestActive := true, currentTest := some config,
        manager := runTest config st.manager })

theorem batchLoopFuel_eq (batchSize messageCount : Nat) (hbs : 1 ≤ batchSize) :
    ∀ fuel sent, messageCount - sent ≤ fuel →
      batchLoopFuel fuel batchSize messageCount sent = messageCount - sent := by
  intro fuel
  induction fuel with
  | zero =>
    intro sent h
    simp only [batchLoopFuel]
    omega
  | succ f ih =>
    intro sent h
    simp only [batchLoopFuel]
    by_cases hs : sent < messageCount
    · rw [if_pos hs]
      by_cases hc : messageCount < sent + batchSize
      · simp only [if_pos hc]
        rw [ih (sent + (messageCount - sent)) (by omega)]
        omega
      · simp only [if_neg hc]
        rw [ih (sent + batchSize) (by omega)]
        omega
    · rw [if_neg hs]
      omega

theorem batchWorkerSent_eq (mc : Nat) : batchWorkerSent mc = mc := by
  unfold batchWorkerSent
  rcases Nat.eq_zero_or_pos mc with h | h
  · subst h; rfl
  · have hbs : 1 ≤ if mc < 100 then mc else 100 := by split <;> omega
    have := batchLoopFuel_eq (if mc < 100 then mc else 100) mc hbs mc 0 (by omega)
    simpa using this

theorem workerQuota_sum (total T : Nat) (hT : 1 ≤ T) :
    ∑ i ∈ Finset.range T, workerQuota total T i = total := by
  unfold workerQuota
  rw [Finset.sum_add_distrib, Finset.sum_const,
    Finset.sum_ite_eq' (Finset.range T) 0 fun _ => total % T]
  simp only [Finset.card_range, smul_eq_mul, Finset.mem_range]
  rw [if_pos (by omega)]
  exact Nat.div_add_mod total T

/-- C5: in batch mode the total message count `total` is split over
`T ≥ 1` workers by `RunBatchTest`: worker 0 receives `total / T + total % T`
and every other worker `total / T`, the quotas sum to exactly `total`, and a
`batchWorker` left uninterrupted sends exactly its quota, so the workers
collectively construct exactly `total` envelopes (in particular 1000 for
`T = 4`, `total = 1000`). -/
theorem batchQuotaSplit (total T : Nat) (hT : 1 ≤ T) :
    workerQuota total T 0 = total / T + total % T ∧
    (∀ i, i ≠ 0 → workerQuota total T i = total / T) ∧
    (∑ i ∈ Finset.range T, workerQuota total T i) = total ∧
    (∑ i ∈ Finset.range T, batchWorkerSent (workerQuota total T i)) = total := by
  refine ⟨by simp [workerQuota], fun i hi => by simp [workerQuota, hi],
    workerQuota_sum total T hT, ?_⟩
  calc ∑ i ∈ Finset.range T, batchWorkerSent (workerQuota total T i)
      = ∑ i ∈ Finset.range T, workerQuota total T i :=
        Finset.sum_congr rfl fun i _ => batchWorkerSent_eq _
    _ = total := workerQuota_sum total T hT

/-- C5 witness: the scenario values thread_count = 4, total_messages = 1000:
each worker gets 250 and exactly 1000 envelopes are sent. -/
theorem batchQuotaSplit_witness :
    1 ≤ 4 ∧ workerQuota 1000 4 0 = 250 ∧
    (∑ i ∈ Finset.range 4, batchWorkerSent (workerQuota 1000 4 i)) = 1000 := by
  refine ⟨by omega, by decide, (batchQuotaSplit 1000 4 (by omega)).2.2.2⟩

/-- C4: whenever a test is active, each of the three start handlers returns
409 Conflict and leaves the whole API state — active flag, current test
configuration, and the manager with the running test's state and
statistics — unchanged. -/
theorem secondStartConflictNoChange {M : Type} (runB runS runL : TestConfig → M → M)
    (reqB : BatchTestRequest) (reqS : StreamTestRequest) (reqL : LargeTestRequest)
    (st : APIState M) (h : st.isTestActive = true) :
    startBatchTest runB reqB st = (.conflict, st) ∧
    startStreamTest runS reqS st = (.conflict, st) ∧
    startLargeTest runL reqL st = (.conflict, st) := by
  refine ⟨?_, ?_, ?_⟩ <;>
    simp [startBatchTest, startStreamTest, startLargeTest, h]

/-- C4 witness: a concrete active state with each of the three requests. -/
theorem secondStartConflictNoChange_witness :
    (⟨true, none, 0⟩ : APIState Nat).isTestActive = true ∧
    startBatchTest (fun _ m => m) ⟨"tcp", 4, 1024, 1000, 60⟩
      (⟨true, none, 0⟩ : APIState Nat) = (.conflict, ⟨true, none, 0⟩) ∧
    startStreamTest (fun _ m => m) ⟨"tcp", 100, 1024, 60⟩
      (⟨true, none, 0⟩ : APIState Nat) = (.conflict, ⟨true, none, 0⟩) ∧
    startLargeTest (fun _ m => m) ⟨"tcp", 2, 50, 60⟩
      (⟨true, none, 0⟩ : APIState Nat) = (.conflict, ⟨true, none, 0⟩) := by
  refine ⟨rfl, ?_⟩
  exact secondStartConflictNoChange (fun _ m => m) (fun _ m => m) (fun _ m => m)
    ⟨"tcp", 4, 1024, 1000, 60⟩ ⟨"tcp", 100, 1024, 60⟩ ⟨"tcp", 2, 50, 60⟩
    (⟨true, none, 0⟩ : APIState Nat) rfl

/-- Record with creation timestamp T0 for the C7 analysis. -/
def dataA : Data :=
  { id := 1, timestamp := "2024-01-20T15:30:45.100Z", indicatorID := 10,
    indicatorValue := "value_aaaaaaaaa", equipmentID := 3 }

/-- Record with a different creation timestamp T1 for the C7 analysis. -/
def dataB : Data :=
  { id := 2, timestamp := "2024-01-20T15:30:45.200Z", indicatorID := 11,
    indicatorValue := "value_bbbbbbbbb", equipmentID := 4 }

/-- Stand-in digest function for inputs where the checksum value is
irrelevant to the property under study. -/
def hashStub : String → String := fun _ => "d0d0"

/-- C7: evaluating the envelope builders on the two-record corpus
[dataA, dataB] at dataIndex 0 — the payload serializes dataA, but because
`dataIndex++` sits between `json.Marshal(data[dataIndex%len(data)])` and the
`Timestamp:` field read, the envelope's timestamp is dataB's creation time,
not that of the record in the payload; the streaming path repeats the same
pattern. The claim (timestamp equals the creation time of the serialized
record) therefore fails on the code. -/
theorem envelopeTimestampFromNextRecord :
    (batchWorkerMessage hashStub "now" 1 [dataA, dataB] 0).payload = encodeData dataA ∧
    (batchWorkerMessage hashStub "now" 1 [dataA, dataB] 0).timestamp = dataB.timestamp ∧
    dataB.timestamp ≠ dataA.timestamp ∧
    (streamTickMessage hashStub "now" 1 [dataA, dataB] 0).payload = encodeData dataA ∧
    (streamTickMessage hashStub "now" 1 [dataA, dataB] 0).timestamp = dataB.timestamp := by
  exact ⟨rfl, rfl, by decide, rfl, rfl⟩

theorem putUint32BE_length (n : Nat) : (putUint32BE n).length = 4 := rfl

theorem be32_putUint32BE (n : Nat) (h : n < 2 ^ 32) : be32 (putUint32BE n) = n := by
  simp only [putUint32BE, be32]
  omega

theorem readExact_append (n : Nat) (a r : List Nat) (h : a.length = n) :
    readExact n (a ++ r) = some (a, r) := by
  subst h
  unfold readExact
  rw [if_pos (by simp)]
  rw [List.take_left, List.drop_left]

theorem readExact_all (s : List Nat) : readExact s.length s = some (s, []) := by
  unfold readExact
  rw [if_pos (le_refl _)]
  simp

/-- C9: a batch frame below the ceiling decodes and the server processes
exactly the `messages` sequence of the decoded batch — every element, in
order — while the `count` field is carried along purely informationally: it
does not influence which messages are iterated, and no protocol error
occurs, whatever value `count` holds. -/
theorem batchIterationIgnoresCount (decM : List Nat → Option Message)
    (decB : List Nat → Option MessageBatch) (data : List Nat) (b : MessageBatch)
    (hdec : decB data = some b) (hlen : data.length ≤ maxFrame) :
    handleConnection decM decB (clientBatchFrame data) =
      [SrvEvent.batch b.messages b.count] := by
  have hb : handleBatchF decB (putUint32BE data.length ++ data) =
      (.batch b.messages b.count, []) := by
    unfold handleBatchF
    rw [readExact_append 4 (putUint32BE data.length) data (putUint32BE_length _)]
    dsimp only
    rw [be32_putUint32BE data.length
      (lt_of_le_of_lt hlen (by norm_num [maxFrame]))]
    rw [if_neg (not_lt.mpr hlen)]
    rw [readExact_all data]
    dsimp only
    rw [hdec]
  show handleConnection decM decB
    ((0x01 : Nat) :: (putUint32BE data.length ++ data)) = _
  rw [handleConnection_cons, if_pos rfl, hb]
  rfl

/-- Messages for the concrete batch used by C2 and C9. -/
def msgW1 : Message := ⟨"s1", 1, "t1", "p1", "c1"⟩

/-- Second concrete message of the same batch. -/
def msgW2 : Message := ⟨"s2", 2, "t2", "p2", "c2"⟩

/-- Concrete 2-message batch whose informational count field lies (99). -/
def batchW : MessageBatch := ⟨[msgW1, msgW2], "bt", 99⟩

/-- Concrete stand-in batch decoder: decodes the one-byte body [66] to
`batchW`. -/
def decBW : List Nat → Option MessageBatch :=
  fun bs => if bs = [66] then some batchW else none

/-- Concrete stand-in message decoder that never succeeds (not exercised on
the traces it is used in). -/
def decMW : List Nat → Option Message := fun _ => none

/-- C9 witness: the one-byte batch body [66] decodes to a 2-message batch
whose count field says 99; both messages are processed and 99 is ignored. -/
theorem batchIterationIgnoresCount_witness :
    decBW [66] = some batchW ∧ ([66] : List Nat).length ≤ maxFrame ∧
    handleConnection decMW decBW (clientBatchFrame [66]) =
      [SrvEvent.batch [msgW1, msgW2] 99] := by
  refine ⟨rfl, by norm_num [maxFrame], ?_⟩
  exact batchIterationIgnoresCount decMW decBW [66] batchW rfl
    (by norm_num [maxFrame])

/-- C2 (amended): a frame whose 4-byte big-endian length prefix exceeds
100 MiB makes `handleMessage`/`handleBatch` return an error before reading
the frame body; `handleConnection` logs it and increments the error counter,
but then continues reading the same connection from the bytes after the
length prefix — it does not terminate the connection. Both the
single-envelope path (first byte neither 0x00 nor 0x01) and the batch path
behave this way. -/
theorem oversizedFrameCountedLoopContinues (decM : List Nat → Option Message)
    (decB : List Nat → Option MessageBatch) :
    (∀ b rest lb r1, b ≠ 0x00 → b ≠ 0x01 →
      readExact 4 (b :: rest) = some (lb, r1) → maxFrame < be32 lb →
      handleConnection decM decB (b :: rest) =
        .frameError true :: handleConnection decM decB r1) ∧
    (∀ rest lb r1,
      readExact 4 rest = some (lb, r1) → maxFrame < be32 lb →
      handleConnection decM decB (0x01 :: rest) =
        .frameError true :: handleConnection decM decB r1) := by
  constructor
  · intro b rest lb r1 hb0 hb1 hread hover
    rw [handleConnection_cons, if_neg hb1, if_neg hb0]
    have h : handleMessageF decM (b :: rest) = (.frameError true, r1) := by
      unfold handleMessageF
      rw [hread]
      dsimp only
      rw [if_pos hover]
    rw [h]
  · intro rest lb r1 hread hover
    rw [handleConnection_cons, if_pos rfl]
    have h : handleBatchF decB rest = (.frameError true, r1) := by
      unfold handleBatchF
      rw [hread]
      dsimp only
      rw [if_pos hover]
    rw [h]

/-- C2 witness: the frame header [0x07,0,0,0] claims 7·2^24 bytes
(117 MB > 100 MiB): the reader yields the oversized error and goes on with
the (empty) remainder of the stream. -/
theorem oversizedFrameCountedLoopContinues_witness :
    readExact 4 [0x07, 0x00, 0x00, 0x00] = some ([0x07, 0x00, 0x00, 0x00], []) ∧
    maxFrame < be32 [0x07, 0x00, 0x00, 0x00] ∧
    handleConnection decMW decBW [0x07, 0x00, 0x00, 0x00] =
      [SrvEvent.frameError true] := by
  refine ⟨rfl, by norm_num [maxFrame, be32], ?_⟩
  exact (oversizedFrameCountedLoopContinues decMW decBW).1 0x07 [0x00, 0x00, 0x00]
    [0x07, 0x00, 0x00, 0x00] [] (by decide) (by decide) rfl
    (by norm_num [maxFrame, be32])

/-- C2 counterexample: on the stream carrying an oversize-claiming header
followed by a well-formed batch frame, the reader records the violation and
then still processes the following batch on the very same connection — the
run does not stop at the violation, refuting the claim that the connection
handling the frame is terminated. -/
theorem oversizedFrameDoesNotTerminate :
    handleConnection decMW decBW
        ([0x07, 0x00, 0x00, 0x00] ++ clientBatchFrame [66]) =
      [SrvEvent.frameError true, SrvEvent.batch [msgW1, msgW2] 99] ∧
    handleConnection decMW decBW
        ([0x07, 0x00, 0x00, 0x00] ++ clientBatchFrame [66]) ≠
      [SrvEvent.frameError true] := by
  constructor <;> decide

/-- Concrete envelope for the C1 analysis; its JSON serialization is 130
bytes, so the length prefix written by `TCPClient.Send` is [0,0,0,130]. -/
def msgC1 : Message :=
  { sendTime := "2024-01-20T15:30:45.123Z"
    messageID := 12345
    timestamp := "2024-01-20T15:30:45.123Z"
    payload := "p"
    checksum := "00ff" }

set_option maxRecDepth 100000 in
/-- C1: failing-input evaluation. Fed the exact bytes `TCPClient.Send`
writes for `msgC1` — a 4-byte big-endian length prefix and the JSON — the
server reader never decodes any envelope, whatever JSON decoders are plugged
in: the three leading 0x00 bytes of the length prefix are consumed as
keep-alive probes, the byte 130 together with the first three JSON bytes is
then read as a bogus length over 100 MiB, and the remaining frame dissolves
4 bytes at a time into 32 oversize errors plus one truncated-read error. The
round-trip claim fails because `Send` writes no marker byte while the server
dispatches on the first byte of the length prefix. -/
theorem streamRoundTripFailsAtSmallFrame (decM : List Nat → Option Message)
    (decB : List Nat → Option MessageBatch) :
    handleConnection decM decB
        (clientMessageFrame (strBytes (encodeMessage msgC1))) =
      List.replicate 32 (SrvEvent.frameError true) ++ [SrvEvent.frameError false] := by
  rfl

theorem updateMinMaxLatency_fields (st : ProcessorStats) (v : Int) :
    (updateMinMaxLatency st v).messagesReceived = st.messagesReceived ∧
    (updateMinMaxLatency st v).messagesProcessed = st.messagesProcessed ∧
    (updateMinMaxLatency st v).messagesValid = st.messagesValid ∧
    (updateMinMaxLatency st v).messagesInvalid = st.messagesInvalid ∧
    (updateMinMaxLatency st v).checksumErrors = st.checksumErrors ∧
    (updateMinMaxLatency st v).processingErrors = st.processingErrors ∧
    (updateMinMaxLatency st v).totalLatency = st.totalLatency ∧
    (updateMinMaxLatency st v).minLatency =
      (if st.minLatency = 0 ∨ v < st.minLatency then v else st.minLatency) ∧
    (updateMinMaxLatency st v).maxLatency =
      (if st.maxLatency < v then v else st.maxLatency) := by
  unfold updateMinMaxLatency updateMaxLatency updateMinLatency
  split_ifs <;> simp_all

theorem ProcessMessage_classification (hash : String → String)
    (parse : String → Option Int) (rt : String) (st : ProcessorStats) (m : Message) :
    (ProcessMessage hash parse rt st m).messagesInvalid =
      st.messagesInvalid + (if (ValidateMessage hash m).1 then 0 else 1) ∧
    (ProcessMessage hash parse rt st m).checksumErrors =
      st.checksumErrors + (if (ValidateMessage hash m).1 then 0 else 1) ∧
    (ProcessMessage hash parse rt st m).messagesValid =
      st.messagesValid + (if (ValidateMessage hash m).1 then 1 else 0) := by
  simp only [ProcessMessage]
  cases hcl : CalculateLatency parse m.sendTime rt <;>
    simp only [updateMinMaxLatency, updateMaxLatency, updateMinLatency] <;>
    split_ifs <;> simp_all

theorem ValidateMessage_fst_false (hash : String → String) (m : Message)
    (hmm : hash m.payload ≠ m.checksum) : (ValidateMessage hash m).1 = false := by
  unfold ValidateMessage
  split_ifs <;> simp_all [beq_eq_false_iff_ne]

theorem firstMismatchAux_least (e : List Nat) :
    ∀ (a : List Nat) (i : Nat),
      (∃ j, j < min e.length a.length ∧ e.get? j ≠ a.get? j) →
      ∃ q, firstMismatchAux e a i = i + q ∧ q < min e.length a.length ∧
        e.get? q ≠ a.get? q ∧ (∀ j, j < q → e.get? j = a.get? j) := by
  induction e with
  | nil =>
    intro a i h
    obtain ⟨j, hj, -⟩ := h
    simp at hj
  | cons x etl ih =>
    intro a i h
    cases a with
    | nil =>
      obtain ⟨j, hj, -⟩ := h
      simp at hj
    | cons y atl =>
      by_cases hxy : x = y
      · obtain ⟨j, hj, hne⟩ := h
        cases j with
        | zero => simp [hxy] at hne
        | succ j =>
          have hex : ∃ j, j < min etl.length atl.length ∧
              etl.get? j ≠ atl.get? j := by
            refine ⟨j, ?_, ?_⟩
            · simp only [List.length_cons] at hj
              omega
            · simpa using hne
          obtain ⟨q, heq, hlt, hneq, hall⟩ := ih atl (i + 1) hex
          refine ⟨q + 1, ?_, ?_, ?_, ?_⟩
          · show firstMismatchAux (x :: etl) (y :: atl) i = i + (q + 1)
            simp only [firstMismatchAux, if_neg (not_not_intro hxy)]
            omega
          · simp only [List.length_cons]
            omega
          · simpa using hneq
          · intro j hjq
            cases j with
            | zero => simp [hxy]
            | succ j =>
              have := hall j (by omega)
              simpa using this
      · refine ⟨0, ?_, ?_, ?_, ?_⟩
        · show firstMismatchAux (x :: etl) (y :: atl) i = i + 0
          simp only [firstMismatchAux, if_pos hxy]
          omega
        · simp only [List.length_cons]
          omega
        · simp [hxy]
        · intro j hj
          omega

/-- C3 (amended): for an envelope whose recomputed digest differs from the
embedded checksum, processing increments the invalid and checksum-error
counters by exactly one and leaves the valid counter unchanged; the
`ChecksumComparison` record retains both the expected and the actual digest,
and — whenever the two digests differ at some byte position within the
length of the shorter one, which always holds for equal-length digests — the
recorded position is exactly the first such position. (When one digest is a
proper strict prefix of the other no in-range position differs and the
recorded position stays 0, the struct's zero value, with the length
difference recorded alongside — this prefix case is what forces the
correction of the claim.) -/
theorem checksumMismatchCountsAndDiagnostics (hash : String → String)
    (parse : String → Option Int) (rt : String) (st : ProcessorStats)
    (m : Message) (hmm : hash m.payload ≠ m.checksum)
    (hdiff : ∃ j, j < min (strBytes m.checksum).length
        (strBytes (hash m.payload)).length ∧
      (strBytes m.checksum).get? j ≠ (strBytes (hash m.payload)).get? j) :
    (ProcessMessage hash parse rt st m).messagesInvalid = st.messagesInvalid + 1 ∧
    (ProcessMessage hash parse rt st m).checksumErrors = st.checksumErrors + 1 ∧
    (ProcessMessage hash parse rt st m).messagesValid = st.messagesValid ∧
    (CompareChecksums m.checksum (hash m.payload)).expected = m.checksum ∧
    (CompareChecksums m.checksum (hash m.payload)).actual = hash m.payload ∧
    (CompareChecksums m.checksum (hash m.payload)).isValid = false ∧
    (CompareChecksums m.checksum (hash m.payload)).firstMismatchPosition <
      min (strBytes m.checksum).length (strBytes (hash m.payload)).length ∧
    (strBytes m.checksum).get?
        (CompareChecksums m.checksum (hash m.payload)).firstMismatchPosition ≠
      (strBytes (hash m.payload)).get?
        (CompareChecksums m.checksum (hash m.payload)).firstMismatchPosition ∧
    (∀ j, j < (CompareChecksums m.checksum (hash m.payload)).firstMismatchPosition →
      (strBytes m.checksum).get? j = (strBytes (hash m.payload)).get? j) := by
  have hv := ValidateMessage_fst_false hash m hmm
  obtain ⟨c1, c2, c3⟩ := ProcessMessage_classification hash parse rt st m
  have hneq : m.checksum ≠ hash m.payload := fun h => hmm h.symm
  obtain ⟨q, hq, hlt, hne, hall⟩ :=
    firstMismatchAux_least (strBytes m.checksum) (strBytes (hash m.payload)) 0 hdiff
  have hp : (CompareChecksums m.checksum (hash m.payload)).firstMismatchPosition = q := by
    unfold CompareChecksums
    rw [if_neg hneq]
    simpa using hq
  refine ⟨by simp [c1, hv], by simp [c2, hv], by simp [c3, hv], ?_, ?_, ?_, ?_, ?_, ?_⟩
  · unfold CompareChecksums
    rw [if_neg hneq]
  · unfold CompareChecksums
    rw [if_neg hneq]
  · unfold CompareChecksums
    rw [if_neg hneq]
  · rw [hp]; exact hlt
  · rw [hp]; exact hne
  · rw [hp]; exact hall

/-- Digest stand-in for the C3 witness: always "ab". -/
def hashW : String → String := fun _ => "ab"

/-- Time parser stand-in that never parses. -/
def parseStub : String → Option Int := fun _ => none

/-- Envelope with embedded checksum "aq" for the C3 witness: the digests
"aq" and "ab" differ at byte position 1. -/
def msgC3w : Message :=
  { sendTime := "", messageID := 3, timestamp := "", payload := "x", checksum := "aq" }

/-- C3 witness: recomputed digest "ab" against embedded "aq" — one invalid
message counted and a mismatch record with position 1. -/
theorem checksumMismatchCountsAndDiagnostics_witness :
    hashW msgC3w.payload ≠ msgC3w.checksum ∧
    (1 < min (strBytes msgC3w.checksum).length
        (strBytes (hashW msgC3w.payload)).length ∧
      (strBytes msgC3w.checksum).get? 1 ≠ (strBytes (hashW msgC3w.payload)).get? 1) ∧
    (ProcessMessage hashW parseStub "R" ProcessorStats.zero msgC3w).messagesInvalid =
      ProcessorStats.zero.messagesInvalid + 1 ∧
    (CompareChecksums msgC3w.checksum (hashW msgC3w.payload)).isValid = false := by
  refine ⟨by decide, ⟨by decide, by decide⟩, ?_, ?_⟩
  · exact (checksumMismatchCountsAndDiagnostics hashW parseStub "R"
      ProcessorStats.zero msgC3w (by decide) ⟨1, by decide, by decide⟩).1
  · exact (checksumMismatchCountsAndDiagnostics hashW parseStub "R"
      ProcessorStats.zero msgC3w (by decide) ⟨1, by decide, by decide⟩).2.2.2.2.2.1

/-- Digest stand-in for the C3 counterexample: always "abcd". -/
def hashPref : String → String := fun _ => "abcd"

/-- Envelope whose embedded checksum "ab" is a strict prefix of the
recomputed digest "abcd". -/
def msgC3x : Message :=
  { sendTime := "", messageID := 4, timestamp := "", payload := "x", checksum := "ab" }

/-- C3 counterexample: with embedded digest "ab" a strict prefix of the
recomputed "abcd", the checksums differ and a mismatch is recorded, but the
recorded first-mismatch position is 0 — a position where the two digests
AGREE — while the first actual divergence is at byte 2 (where only the
longer digest has a byte). The mismatch record therefore does not always
retain the position of the first differing byte, refuting the claim as
stated. -/
theorem checksumMismatchPositionNotRecorded :
    hashPref msgC3x.payload ≠ msgC3x.checksum ∧
    (CompareChecksums msgC3x.checksum (hashPref msgC3x.payload)).isValid = false ∧
    (CompareChecksums msgC3x.checksum (hashPref msgC3x.payload)).firstMismatchPosition = 0 ∧
    (strBytes msgC3x.checksum).get? 0 = (strBytes (hashPref msgC3x.payload)).get? 0 ∧
    (strBytes msgC3x.checksum).get? 2 ≠ (strBytes (hashPref msgC3x.payload)).get? 2 := by
  refine ⟨by decide, by decide, by decide, by decide, by decide⟩

/-- C8 (amended): latency is computed as the receive timestamp minus the
send timestamp, truncated to whole microseconds and converted to fractional
milliseconds through float64; the processor stores back
`int64(latency * 1000)`, a lossy float64 round trip that can land one
microsecond below the true difference (a true latency of 1001 µs stores as
1000 µs — see the counterexample theorem). A message whose send_time is
empty or does not parse leaves the latency aggregates (sum, min, max)
unchanged while the processed count still increments; but a message whose
latency is NEGATIVE is not excluded: the stored negative value is added to
the latency sum and takes part in the min/max update (becoming the minimum
when the stored minimum was unset or larger). -/
theorem latencyComputationAndExclusion (hash : String → String)
    (parse : String → Option Int) (rt : String) (st : ProcessorStats) (m : Message) :
    ((m.sendTime = "" ∨ CalculateLatency parse m.sendTime rt = none) →
      (ProcessMessage hash parse rt st m).totalLatency = st.totalLatency ∧
      (ProcessMessage hash parse rt st m).minLatency = st.minLatency ∧
      (ProcessMessage hash parse rt st m).maxLatency = st.maxLatency) ∧
    (∀ lat, m.sendTime ≠ "" → CalculateLatency parse m.sendTime rt = some lat →
      (ProcessMessage hash parse rt st m).totalLatency =
        st.totalLatency + f64trunc (f64mul1000 lat) ∧
      (ProcessMessage hash parse rt st m).minLatency =
        (if st.minLatency = 0 ∨ f64trunc (f64mul1000 lat) < st.minLatency then
          f64trunc (f64mul1000 lat) else st.minLatency) ∧
      (ProcessMessage hash parse rt st m).maxLatency =
        (if st.maxLatency < f64trunc (f64mul1000 lat) then
          f64trunc (f64mul1000 lat) else st.maxLatency)) ∧
    (ProcessMessage hash parse rt st m).messagesProcessed = st.messagesProcessed + 1 := by
  refine ⟨?_, ?_, ?_⟩
  · intro h
    by_cases hse : m.sendTime = ""
    · simp only [ProcessMessage, hse, if_pos rfl]
      split_ifs <;> simp_all
    · rcases h with h | h
      · exact absurd h hse
      · simp only [ProcessMessage, if_neg hse, h]
        split_ifs <;> simp_all
  · intro lat hne hsome
    simp only [ProcessMessage, if_neg hne, hsome, updateMinMaxLatency,
      updateMaxLatency, updateMinLatency]
    split_ifs <;> simp_all
  · simp only [ProcessMessage]
    cases hcl : CalculateLatency parse m.sendTime rt <;>
      simp only [updateMinMaxLatency, updateMaxLatency, updateMinLatency] <;>
      split_ifs <;> simp_all

/-- Time parser stand-in mapping "S" to 2·10^9 ns and "R" to 10^9 ns, so a
message sent at "S" and received at "R" has latency −10^6 µs. -/
def parseNeg : String → Option Int := fun s =>
  if s = "S" then some 2000000000 else if s = "R" then some 1000000000 else none

/-- Envelope sent at "S" (later than receive time "R"). -/
def msgNeg : Message :=
  { sendTime := "S", messageID := 7, timestamp := "t", payload := "x", checksum := "c" }

/-- C8 witness: the negative-latency envelope processed from zero
statistics: −10^6 µs survives the float64 trip exactly (10^6/1000 and its
product by 1000 are exactly representable), the sum ends at 0 + (−1000000)
and processed at 0 + 1, by the theorem. -/
theorem latencyComputationAndExclusion_witness :
    msgNeg.sendTime ≠ "" ∧
    CalculateLatency parseNeg msgNeg.sendTime "R" =
      some (f64div1000 (f64ofInt (-1000000))) ∧
    f64trunc (f64mul1000 (f64div1000 (f64ofInt (-1000000)))) = -1000000 ∧
    (ProcessMessage hashStub parseNeg "R" ProcessorStats.zero msgNeg).totalLatency =
      ProcessorStats.zero.totalLatency +
        f64trunc (f64mul1000 (f64div1000 (f64ofInt (-1000000)))) ∧
    (ProcessMessage hashStub parseNeg "R" ProcessorStats.zero msgNeg).messagesProcessed =
      ProcessorStats.zero.messagesProcessed + 1 := by
  refine ⟨by decide, by decide, by decide, ?_, ?_⟩
  · exact ((latencyComputationAndExclusion hashStub parseNeg "R"
      ProcessorStats.zero msgNeg).2.1 (f64div1000 (f64ofInt (-1000000)))
      (by decide) (by decide)).1
  · exact (latencyComputationAndExclusion hashStub parseNeg "R"
      ProcessorStats.zero msgNeg).2.2

/-- Time parser stand-in mapping "Z" to 0 ns and "R1" to 1001000 ns, so a
message sent at "Z" and received at "R1" has a true latency of exactly
1001 µs. -/
def parse1001 : String → Option Int := fun s =>
  if s = "Z" then some 0 else if s = "R1" then some 1001000 else none

/-- Envelope sent at "Z" (1001 µs before receive time "R1"). -/
def msg1001 : Message :=
  { sendTime := "Z", messageID := 8, timestamp := "t", payload := "x", checksum := "c" }

/-- C8 counterexample: the claim says unparsable or negative latencies are
excluded from the aggregates; on the first envelope the latency parses to
−1000000 µs and processing changes the aggregates anyway — the sum and the
minimum both become −1000000 — refuting the exclusion of negative results.
The last two conjuncts evaluate a true latency of exactly 1001 µs: the
float64 round trip `int64(float64(1001)/1000.0*1000.0)` truncates to 1000,
so the sum grows by 1000, not 1001 — the stored aggregate is not
microsecond-exact. -/
theorem negativeLatencyEntersAggregates :
    (ProcessMessage hashStub parseNeg "R" ProcessorStats.zero msgNeg).totalLatency =
      -1000000 ∧
    (ProcessMessage hashStub parseNeg "R" ProcessorStats.zero msgNeg).minLatency =
      -1000000 ∧
    (ProcessMessage hashStub parseNeg "R" ProcessorStats.zero msgNeg).messagesProcessed = 1 ∧
    durationMicroseconds (1001000 - 0) = 1001 ∧
    (ProcessMessage hashStub parse1001 "R1" ProcessorStats.zero msg1001).totalLatency =
      1000 := by
  refine ⟨by decide, by decide, by decide, by decide, by decide⟩

theorem int64Wrap_id (x : Int) (h1 : -(2 ^ 63) ≤ x) (h2 : x ≤ 2 ^ 63 - 1) :
    int64Wrap x = x := by
  unfold int64Wrap
  have e63 : (2 : Int) ^ 63 = 9223372036854775808 := by norm_num
  have e64 : (2 : Int) ^ 64 = 18446744073709551616 := by norm_num
  rw [e63, e64] at *
  rw [Int.emod_eq_of_lt (by omega) (by omega)]
  omega

theorem assignIDs_closed : ∀ (k : Nat) (c : Int), 0 ≤ c → c + k ≤ 2 ^ 63 - 1 →
    assignIDs k c = (List.range k).map (fun i : Nat => c + (i : Int) + 1) := by
  intro k
  induction k with
  | zero => intro c _ _; rfl
  | succ k ih =>
    intro c h0 hk
    have e63 : (2 : Int) ^ 63 = 9223372036854775808 := by norm_num
    have hkc : ((k : Int) + 1) = ((k + 1 : Nat) : Int) := by push_cast; ring
    have hadd : messageIDGenAdd c = c + 1 := by
      unfold messageIDGenAdd
      refine int64Wrap_id (c + 1) (by omega) ?_
      rw [e63]
      rw [e63] at hk
      push_cast at hk
      omega
    show messageIDGenAdd c :: assignIDs k (messageIDGenAdd c) = _
    rw [hadd]
    rw [ih (c + 1) (by omega) (by push_cast at hk ⊢; omega)]
    rw [List.range_succ_eq_map]
    simp only [List.map_cons, List.map_map]
    congr 1
    · push_cast; ring
    · apply List.map_congr_left
      intro i _
      simp only [Function.comp_apply]
      push_cast
      ring

/-- C6: the process-wide message-id counter: starting from counter value
`c ≥ 0` (a fresh process starts at 0) with no int64 overflow within `k`
assignments, the `k` ids handed out by successive `messageIDGen.Add(1)`
calls — the single atomic counter all workers, test modes and transports
share, whose operations the runtime serializes — are strictly increasing in
assignment order, pairwise distinct, and `k` in number. -/
theorem messageIDsStrictlyIncreasing (k : Nat) (c : Int) (h0 : 0 ≤ c)
    (hk : c + k ≤ 2 ^ 63 - 1) :
    (assignIDs k c).length = k ∧
    List.Chain' (· < ·) (assignIDs k c) ∧
    (assignIDs k c).Nodup := by
  rw [assignIDs_closed k c h0 hk]
  have hp : ((List.range k).map (fun i : Nat => c + (i : Int) + 1)).Pairwise (· < ·) := by
    refine List.Pairwise.map _ ?_ (List.pairwise_lt_range k)
    intro a b hab
    omega
  exact ⟨by simp, hp.chain', hp.imp fun h => ne_of_lt h⟩

/-- C6 witness: three assignments from a fresh counter. -/
theorem messageIDsStrictlyIncreasing_witness :
    (0 : Int) ≤ 0 ∧ (0 : Int) + (3 : Nat) ≤ 2 ^ 63 - 1 ∧
    (assignIDs 3 0).length = 3 ∧ List.Chain' (· < ·) (assignIDs 3 0) ∧
    (assignIDs 3 0).Nodup := by
  refine ⟨le_refl 0, by norm_num, ?_⟩
  exact messageIDsStrictlyIncreasing 3 0 (le_refl 0) (by norm_num)

theorem minMaxFoldInvariant (tl : List Int) :
    ∀ st : ProcessorStats, (∀ v ∈ tl, 0 < v) → 0 < st.minLatency →
      ((tl.foldl updateMinMaxLatency st).minLatency = st.minLatency ∨
        (tl.foldl updateMinMaxLatency st).minLatency ∈ tl) ∧
      (tl.foldl updateMinMaxLatency st).minLatency ≤ st.minLatency ∧
      (∀ v ∈ tl, (tl.foldl updateMinMaxLatency st).minLatency ≤ v) ∧
      ((tl.foldl updateMinMaxLatency st).maxLatency = st.maxLatency ∨
        (tl.foldl updateMinMaxLatency st).maxLatency ∈ tl) ∧
      st.maxLatency ≤ (tl.foldl updateMinMaxLatency st).maxLatency ∧
      (∀ v ∈ tl, v ≤ (tl.foldl updateMinMaxLatency st).maxLatency) := by
  induction tl with
  | nil =>
    intro st _ _
    simp
  | cons v tl ih =>
    intro st hpos hmin
    have hv : 0 < v := hpos v (by simp)
    obtain ⟨-, -, -, -, -, -, -, hmin1, hmax1⟩ :=
      updateMinMaxLatency_fields st v
    have hmin1pos : 0 < (updateMinMaxLatency st v).minLatency := by
      rw [hmin1]; split_ifs <;> omega
    have hmin1le : (updateMinMaxLatency st v).minLatency ≤ st.minLatency := by
      rw [hmin1]; split_ifs <;> omega
    have hmin1v : (updateMinMaxLatency st v).minLatency ≤ v := by
      rw [hmin1]; split_ifs <;> omega
    have hmax1ge : st.maxLatency ≤ (updateMinMaxLatency st v).maxLatency := by
      rw [hmax1]; split_ifs <;> omega
    have hmax1v : v ≤ (updateMinMaxLatency st v).maxLatency := by
      rw [hmax1]; split_ifs <;> omega
    obtain ⟨ha, hb, hc, hd, he, hf⟩ := ih (updateMinMaxLatency st v)
      (fun w hw => hpos w (by simp [hw])) hmin1pos
    simp only [List.foldl_cons]
    refine ⟨?_, ?_, ?_, ?_, ?_, ?_⟩
    · rcases ha with ha | ha
      · rw [ha, hmin1]
        split_ifs
        · right; simp
        · left; rfl
      · right; simp [ha]
    · omega
    · intro w hw
      rcases List.mem_cons.mp hw with hw | hw
      · subst hw; omega
      · exact hc w hw
    · rcases hd with hd | hd
      · rw [hd, hmax1]
        split_ifs
        · right; simp
        · left; rfl
      · right; simp [hd]
    · omega
    · intro w hw
      rcases List.mem_cons.mp hw with hw | hw
      · subst hw; omega
      · exact hf w hw

/-- C10: starting from the zero-initialized statistics, after any nonempty
sequence of sequential `updateMinMaxLatency` calls with positive latency
values, MaxLatency is an element of the supplied values that bounds them all
from above (the largest supplied so far) and MinLatency is an element
bounding them all from below (the smallest supplied so far); the zero start
value acts as the unset sentinel that the first update always replaces. -/
theorem minMaxLatencyFoldCorrect (vs : List Int) (hne : vs ≠ [])
    (hpos : ∀ v ∈ vs, 0 < v) :
    ((vs.foldl updateMinMaxLatency ProcessorStats.zero).minLatency ∈ vs ∧
      ∀ v ∈ vs, (vs.foldl updateMinMaxLatency ProcessorStats.zero).minLatency ≤ v) ∧
    ((vs.foldl updateMinMaxLatency ProcessorStats.zero).maxLatency ∈ vs ∧
      ∀ v ∈ vs, v ≤ (vs.foldl updateMinMaxLatency ProcessorStats.zero).maxLatency) := by
  cases vs with
  | nil => exact absurd rfl hne
  | cons v tl =>
    have hv : 0 < v := hpos v (by simp)
    obtain ⟨-, -, -, -, -, -, -, hmin1, hmax1⟩ :=
      updateMinMaxLatency_fields ProcessorStats.zero v
    have hmin1v : (updateMinMaxLatency ProcessorStats.zero v).minLatency = v := by
      rw [hmin1]
      simp [ProcessorStats.zero]
    have hmax1v : (updateMinMaxLatency ProcessorStats.zero v).maxLatency = v := by
      rw [hmax1]
      simp only [ProcessorStats.zero]
      rw [if_pos hv]
    have hmin1pos : 0 < (updateMinMaxLatency ProcessorStats.zero v).minLatency := by
      omega
    obtain ⟨ha, hb, hc, hd, he, hf⟩ := minMaxFoldInvariant tl
      (updateMinMaxLatency ProcessorStats.zero v)
      (fun w hw => hpos w (by simp [hw])) hmin1pos
    simp only [List.foldl_cons]
    refine ⟨⟨?_, ?_⟩, ?_, ?_⟩
    · rcases ha with ha | ha
      · rw [ha, hmin1v]; simp
      · simp [ha]
    · intro w hw
      rcases List.mem_cons.mp hw with hw | hw
      · subst hw; omega
      · exact hc w hw
    · rcases hd with hd | hd
      · rw [hd, hmax1v]; simp
      · simp [hd]
    · intro w hw
      rcases List.mem_cons.mp hw with hw | hw
      · subst hw; omega
      · exact hf w hw

/-- C10 witness: the sequence [3, 1, 2]: the minimum ends at 1 and the
maximum at 3. -/
theorem minMaxLatencyFoldCorrect_witness :
    ([3, 1, 2] : List Int) ≠ [] ∧ (∀ v ∈ ([3, 1, 2] : List Int), 0 < v) ∧
    (([3, 1, 2] : List Int).foldl updateMinMaxLatency ProcessorStats.zero).minLatency ∈
      ([3, 1, 2] : List Int) ∧
    (∀ v ∈ ([3, 1, 2] : List Int),
      v ≤ (([3, 1, 2] : List Int).foldl updateMinMaxLatency ProcessorStats.zero).maxLatency) := by
  refine ⟨by decide, by decide, ?_, ?_⟩
  · exact (minMaxLatencyFoldCorrect [3, 1, 2] (by decide) (by decide)).1.1
  · exact (minMaxLatencyFoldCorrect [3, 1, 2] (by decide) (by decide)).2.2
